import Mathlib

/-!
Shallow embedding of `src/main.py`, a small queue downloader built around the
external yt-dlp library.  The pieces of actual logic are embedded faithfully:

* `classify_error`   — the substring-based error classifier (main.py 116-122);
* `download_go` / `download_single` — the per-URL retry loop (main.py 125-154),
  with the external collaborator (metadata extraction + download) abstracted as
  an oracle `Nat → Option String` giving, per 1-based attempt number, `none`
  for a successful attempt or `some msg` for a failure with message `msg`;
  the embedding additionally counts inter-retry sleeps and collaborator
  invocations so that resource claims can be stated;
* `load_queue`       — the queue parser (main.py 66-79), with the two regexes
  `MARKDOWN_LINK_RE` and `YOUTUBE_URL_RE` compiled by hand into character-list
  matchers (ASCII approximation of Python's unicode whitespace/casefolding,
  which is exact on the inputs the claims use);
* `load_log` / `append_failed` / `process_queue` — run recording
  (main.py 82-103, 157-189), with the filesystem modelled as the three files
  the program touches; the log file is modelled at the JSON-parse level
  (absent / unparseable / parseable-but-not-a-list / a list of entries),
  matching exactly the distinctions `load_log` makes.

Python strings are modelled as Lean `String` and scanned through `.data`
(`List Char`).
-/

namespace YtQueue

/-- `StatusCode` enum of main.py (lines 36-40). -/
inductive StatusCode where
  | SUCCESS
  | RATE_LIMIT
  | AGE_LIMIT
  | UNKNOWN_ERROR
deriving DecidableEq, Repr

/-- `LogEntry` dataclass of main.py (lines 43-49).  `retries` is an `int`
that is always nonnegative in the program, hence `Nat`. -/
structure LogEntry where
  url : String
  status : String
  status_code : StatusCode
  retries : Nat
  date_created : String
deriving DecidableEq, Repr

/-! ### String primitives (Python `str` operations, ASCII fragment) -/

/-- ASCII whitespace as Python's `\s` / `str.strip()` see them. -/
def pyIsSpace (c : Char) : Bool :=
  c == ' ' || c == '\t' || c == '\n' || c == '\r' || c == '\x0b' || c == '\x0c'

/-- `isPre pat l`: `pat` is a prefix of `l` (exact characters). -/
def isPre : List Char → List Char → Bool
  | [], _ => true
  | _ :: _, [] => false
  | a :: as, b :: bs => a == b && isPre as bs

/-- `hasSub hay pat`: `pat` occurs contiguously in `hay` — Python's
`pat in hay` on strings. -/
def hasSub : List Char → List Char → Bool
  | [], pat => isPre pat []
  | c :: t, pat => isPre pat (c :: t) || hasSub t pat

/-- Python `str.lower()` (ASCII fragment, via `Char.toLower`). -/
def lowerC (l : List Char) : List Char := l.map Char.toLower

/-- Python `str.strip()` (ASCII whitespace fragment). -/
def strip (s : String) : String :=
  String.mk (((s.data.dropWhile pyIsSpace).reverse.dropWhile pyIsSpace).reverse)

/-- Python `str.splitlines()` restricted to `\n` line boundaries (the only
boundary the program ever writes), with Python's rule that a trailing
newline does not open a final empty line.  The accumulator holds the
current line reversed. -/
def splitlinesGo : List Char → List Char → List String
  | [], acc => if acc.isEmpty then [] else [String.mk acc.reverse]
  | c :: rest, acc =>
      if c = '\n' then String.mk acc.reverse :: splitlinesGo rest []
      else splitlinesGo rest (c :: acc)

def splitlinesC (l : List Char) : List String := splitlinesGo l []

/-- Python `"\n".join(xs)` as a character list. -/
def joinC : List String → List Char
  | [] => []
  | [x] => x.data
  | x :: xs => x.data ++ '\n' :: joinC xs

/-! ### Error Classifier (main.py 116-122) -/

/-- Body of `classify_error` after `msg = str(exc).lower()`: match known
substrings on the lowered message. -/
def classifyLowered (m : List Char) : StatusCode :=
  if hasSub m "429".data || hasSub m "too many requests".data || hasSub m "rate".data then
    StatusCode.RATE_LIMIT
  else if hasSub m "age".data && hasSub m "restrict".data then
    StatusCode.AGE_LIMIT
  else
    StatusCode.UNKNOWN_ERROR

/-- `classify_error` of main.py: lower-case the failure's message, then match
known substrings.  The failure object is modelled by its message text
(`str(exc)`). -/
def classify_error (msg : String) : StatusCode :=
  classifyLowered (lowerC msg.data)

/-! ### Retry Controller (main.py 125-154)

The external collaborator is abstracted as `oracle : Nat → Option String`:
attempt number `n` (1-based, as the Python `attempts` counter after its
increment) either succeeds (`none`) or fails with message `some msg`
(a failure in either the metadata-extraction step or the download step; both
are caught by the same handlers and classified identically).

`download_go oracle fuel attempts last sleeps calls` embeds the
`while attempts < max_retries` loop with `fuel = max_retries - attempts`
iterations remaining, so the loop guard `attempts < max_retries` is
`fuel ≠ 0` and the inner sleep guard (after the increment) is `fuel - 1 ≠ 0`.
The result is `(status, returned-count, sleeps, calls)` where `sleeps` counts
executions of `time.sleep` and `calls` counts attempts that invoked the
collaborator. -/

def download_go (oracle : Nat → Option String) :
    Nat → Nat → StatusCode → Nat → Nat → StatusCode × Nat × Nat × Nat
  | 0, attempts, last, sleeps, calls => (last, attempts, sleeps, calls)
  | remaining + 1, attempts, _last, sleeps, calls =>
      let att := attempts + 1
      match oracle att with
      | none => (StatusCode.SUCCESS, att - 1, sleeps, calls + 1)
      | some msg =>
          let last' := classify_error msg
          let sleeps' := if remaining > 0 then sleeps + 1 else sleeps
          download_go oracle remaining att last' sleeps' (calls + 1)

/-- `download_single` of main.py: `attempts = 0`,
`last_status = UNKNOWN_ERROR`, then the retry loop. -/
def download_single (oracle : Nat → Option String) (maxRetries : Nat) :
    StatusCode × Nat × Nat × Nat :=
  download_go oracle maxRetries 0 StatusCode.UNKNOWN_ERROR 0 0

/-! ### Queue Loader (main.py 30-33, 66-79) -/

/-- Character class `[^\s)]` of `MARKDOWN_LINK_RE`. -/
def mdRunChar (c : Char) : Bool := !(pyIsSpace c) && !(c == ')')

/-- Try to match `(https?://[^\s)]+)` right after an opening parenthesis:
`l` is the text following the `(`.  Returns capture group 1.  The greedy
`[^\s)]+` takes the maximal run; since the class excludes `)`, the match at
this position succeeds exactly when that maximal run is nonempty and is
followed by `)`. -/
def mdTry (l : List Char) : Option String :=
  let pfx : Option Nat :=
    if isPre "https://".data l then some 8
    else if isPre "http://".data l then some 7
    else none
  match pfx with
  | none => none
  | some k =>
      let rest := l.drop k
      let run := rest.takeWhile mdRunChar
      if run.isEmpty then none
      else
        match rest.drop run.length with
        | ')' :: _ => some (String.mk (l.take k ++ run))
        | _ => none

/-- Leftmost match of `MARKDOWN_LINK_RE` (`re.search`): scan positions left
to right; every match starts at a `(`. -/
def mdFirstLink : List Char → Option String
  | [] => none
  | '(' :: rest =>
      match mdTry rest with
      | some u => some u
      | none => mdFirstLink rest
  | _ :: rest => mdFirstLink rest

/-- `YOUTUBE_URL_RE` matched at the head of `l`, with `l` already
lower-cased (the regex is compiled with `re.IGNORECASE`):
`https?://(?:www\.)?(youtube\.com|youtu\.be)/`.  The optional `www.` group
can never mask a match (neither host alternative starts with `w`), so
consuming it greedily when present is exact. -/
def youtubeAt (l : List Char) : Bool :=
  let tl : Option (List Char) :=
    if isPre "https://".data l then some (l.drop 8)
    else if isPre "http://".data l then some (l.drop 7)
    else none
  match tl with
  | none => false
  | some r =>
      let r2 := if isPre "www.".data r then r.drop 4 else r
      isPre "youtube.com/".data r2 || isPre "youtu.be/".data r2

/-- `YOUTUBE_URL_RE.search(candidate)` is truthy: some position matches. -/
def anyYoutubePos : List Char → Bool
  | [] => false
  | c :: t => youtubeAt (c :: t) || anyYoutubePos t

def hasYoutube (s : String) : Bool := anyYoutubePos (lowerC s.data)

/-- Body of the `for line in lines` loop of `load_queue`. -/
def loadQueueGo : List String → List String
  | [] => []
  | line :: rest =>
      let raw := strip line
      if raw.data.isEmpty || isPre "#".data raw.data then loadQueueGo rest
      else
        let candidate :=
          match mdFirstLink raw.data with
          | some u => u
          | none => raw
        if hasYoutube candidate then candidate :: loadQueueGo rest
        else loadQueueGo rest

/-- `load_queue` of main.py; the queue file is `none` when absent, otherwise
`some` its text. -/
def load_queue : Option String → List String
  | none => []
  | some text => loadQueueGo (splitlinesC text.data)

/-! ### Run Recorder and Orchestrator (main.py 82-103, 157-189)

The log file is modelled at the JSON-parse level, which is exactly the
granularity `load_log` distinguishes: file absent; text that `json.loads`
rejects; a JSON value that is not a list; a JSON list of entries. -/

inductive LogContent where
  | malformed
  | nonList
  | list (entries : List LogEntry)
deriving DecidableEq, Repr

/-- The three files the program touches.  `none` = file absent. -/
structure FS where
  queue : Option String
  failed : Option String
  log : Option LogContent
deriving DecidableEq, Repr

/-- `load_log` of main.py: absent file, unparseable text, or a parse that is
not a list all yield `[]`; only a parsed list is returned.  The `try/except`
makes the Python function total; the embedding is total by construction. -/
def load_log : Option LogContent → List LogEntry
  | some (LogContent.list l) => l
  | _ => []

/-- Lines of the failure file as `append_failed` reads them
(`read_text().splitlines()`, `[]` when the file is absent). -/
def loadLines : Option String → List String
  | none => []
  | some s => splitlinesC s.data

/-- `append_failed` of main.py: no-op on an empty list, else rewrite the file
as existing lines ++ new urls, newline-joined with a trailing newline. -/
def append_failed (existing : Option String) (failed_urls : List String) :
    Option String :=
  if failed_urls.isEmpty then existing
  else some (String.mk (joinC (loadLines existing ++ failed_urls) ++ ['\n']))

/-- Per-URL body of the `for url in urls` loop of `process_queue`
(main.py 168-186): run `download_single`, build the `LogEntry`, and collect
the url into `failed_urls` when not successful.  `now` is the shared
`datetime.utcnow().isoformat() + "Z"` timestamp of the run.
`retries := attempts - 1` on `Nat` is Python's `max(0, attempts - 1)`. -/
def runOnUrls (oracles : String → Nat → Option String) (maxRetries : Nat)
    (now : String) : List String → List LogEntry × List String
  | [] => ([], [])
  | url :: rest =>
      let r := download_single (oracles url) maxRetries
      let entry : LogEntry :=
        { url := url
          status := if r.1 = StatusCode.SUCCESS then "downloaded" else "failed"
          status_code := r.1
          retries := if r.1 = StatusCode.SUCCESS then r.2.1 - 1 else r.2.1
          date_created := now }
      let rec' := runOnUrls oracles maxRetries now rest
      (entry :: rec'.1,
        (if r.1 = StatusCode.SUCCESS then [] else [url]) ++ rec'.2)

/-- `process_queue` of main.py restricted to its file effects: an empty queue
returns early touching nothing; otherwise one entry per URL is appended to
the loaded log, failed urls are merged into the failure file, and the log
file is rewritten with the full accumulated list. -/
def process_queue (oracles : String → Nat → Option String) (maxRetries : Nat)
    (now : String) (fs : FS) : FS :=
  let urls := load_queue fs.queue
  if urls.isEmpty then fs
  else
    let prior := load_log fs.log
    let run := runOnUrls oracles maxRetries now urls
    { queue := fs.queue
      failed := append_failed fs.failed run.2
      log := some (LogContent.list (prior ++ run.1)) }

/-! ### Helper lemmas -/

theorem stringMkData (s : String) : String.mk s.data = s := by
  cases s
  rfl

theorem splitlinesGo_no_nl (l : List Char) :
    ∀ acc, ('\n' ∉ acc) → ∀ x ∈ splitlinesGo l acc, '\n' ∉ x.data := by
  induction l with
  | nil =>
      intro acc hacc x hx
      simp only [splitlinesGo] at hx
      split at hx
      · simp at hx
      · simp only [List.mem_singleton] at hx
        subst hx
        simpa using fun h => hacc (List.mem_reverse.mp h)
  | cons c rest ih =>
      intro acc hacc x hx
      simp only [splitlinesGo] at hx
      split at hx
      · rcases List.mem_cons.mp hx with h | h
        · subst h
          simpa using fun h => hacc (List.mem_reverse.mp h)
        · exact ih [] (by simp) x h
      · rename_i hc
        exact ih (c :: acc) (by
          intro h
          rcases List.mem_cons.mp h with h | h
          · exact hc h.symm
          · exact hacc h) x hx

theorem loadLines_no_nl (ex : Option String) (x : String)
    (hx : x ∈ loadLines ex) : '\n' ∉ x.data := by
  cases ex with
  | none => simp [loadLines] at hx
  | some s => exact splitlinesGo_no_nl s.data [] (by simp) x hx

theorem splitlinesGo_line (x : List Char) (hx : '\n' ∉ x) :
    ∀ acc rest, splitlinesGo (x ++ '\n' :: rest) acc =
      String.mk (acc.reverse ++ x) :: splitlinesGo rest [] := by
  induction x with
  | nil => intro acc rest; simp [splitlinesGo]
  | cons c cs ih =>
      intro acc rest
      have hc : c ≠ '\n' := fun h => hx (h ▸ List.mem_cons_self c cs)
      have hcs : '\n' ∉ cs := fun h => hx (List.mem_cons_of_mem c h)
      show splitlinesGo (c :: (cs ++ '\n' :: rest)) acc = _
      simp only [splitlinesGo, if_neg hc]
      rw [ih hcs (c :: acc) rest]
      simp

theorem splitlinesC_joinC (ys : List String) (hne : ys ≠ [])
    (hnl : ∀ x ∈ ys, '\n' ∉ x.data) :
    splitlinesC (joinC ys ++ ['\n']) = ys := by
  induction ys with
  | nil => exact absurd rfl hne
  | cons y ys ih =>
      cases ys with
      | nil =>
          have hy : '\n' ∉ y.data := hnl y (List.mem_singleton.mpr rfl)
          show splitlinesGo (y.data ++ '\n' :: []) [] = [y]
          rw [splitlinesGo_line y.data hy [] []]
          simp [splitlinesGo, stringMkData]
      | cons z zs =>
          have hy : '\n' ∉ y.data := hnl y (List.mem_cons_self _ _)
          have hrest : ∀ x ∈ z :: zs, '\n' ∉ x.data :=
            fun x hx => hnl x (List.mem_cons_of_mem y hx)
          have hj : joinC (y :: z :: zs) ++ ['\n'] =
              y.data ++ '\n' :: (joinC (z :: zs) ++ ['\n']) := by
            simp [joinC, List.append_assoc]
          show splitlinesC (joinC (y :: z :: zs) ++ ['\n']) = y :: z :: zs
          rw [hj]
          show splitlinesGo (y.data ++ '\n' :: (joinC (z :: zs) ++ ['\n'])) [] = _
          rw [splitlinesGo_line y.data hy [] (joinC (z :: zs) ++ ['\n'])]
          simp only [List.reverse_nil, List.nil_append, stringMkData]
          exact congrArg (y :: ·) (ih (by simp) hrest)

theorem loadLines_append_failed (ex : Option String) (failed_urls : List String)
    (hne : failed_urls ≠ []) (hnl : ∀ x ∈ failed_urls, '\n' ∉ x.data) :
    loadLines (append_failed ex failed_urls) = loadLines ex ++ failed_urls := by
  have hiff : failed_urls.isEmpty = false := by
    cases failed_urls with
    | nil => exact absurd rfl hne
    | cons a l => rfl
  have h1 : append_failed ex failed_urls =
      some (String.mk (joinC (loadLines ex ++ failed_urls) ++ ['\n'])) := by
    simp [append_failed, hiff]
  have hne2 : loadLines ex ++ failed_urls ≠ [] := by
    intro h
    exact hne (List.append_eq_nil.mp h).2
  rw [h1]
  show splitlinesC (String.mk (joinC (loadLines ex ++ failed_urls) ++ ['\n'])).data =
    loadLines ex ++ failed_urls
  exact splitlinesC_joinC _ hne2
    (by
      intro x hx
      rcases List.mem_append.mp hx with h | h
      · exact loadLines_no_nl ex x h
      · exact hnl x h)

theorem classifyLowered_ne_success (m : List Char) :
    classifyLowered m ≠ StatusCode.SUCCESS := by
  unfold classifyLowered
  split
  · decide
  · split <;> decide

theorem classify_ne_success (m : String) :
    classify_error m ≠ StatusCode.SUCCESS :=
  classifyLowered_ne_success (lowerC m.data)

/-- One unrolling of the retry loop (`fuel = remaining + 1` iterations
left, i.e. the guard `attempts < max_retries` holds). -/
theorem download_go_succ (oracle : Nat → Option String)
    (remaining attempts : Nat) (last : StatusCode) (sleeps calls : Nat) :
    download_go oracle (remaining + 1) attempts last sleeps calls =
      match oracle (attempts + 1) with
      | none => (StatusCode.SUCCESS, attempts + 1 - 1, sleeps, calls + 1)
      | some msg =>
          download_go oracle remaining (attempts + 1) (classify_error msg)
            (if remaining > 0 then sleeps + 1 else sleeps) (calls + 1) := rfl

/-- When every attempt fails with the same message, the loop runs its whole
budget, classifies that message, and sleeps between consecutive attempts
only. -/
theorem download_go_allfail (oracle : Nat → Option String) (msg : String)
    (hall : ∀ n, oracle n = some msg) :
    ∀ fuel a s c last, 0 < fuel →
      download_go oracle fuel a last s c =
        (classify_error msg, a + fuel, s + (fuel - 1), c + fuel) := by
  intro fuel
  induction fuel with
  | zero => intro a s c last h; omega
  | succ n ih =>
      intro a s c last _
      rw [download_go_succ, hall (a + 1)]
      cases n with
      | zero => simp [download_go]
      | succ m =>
          show download_go oracle (m + 1) (a + 1) (classify_error msg)
              (if m + 1 > 0 then s + 1 else s) (c + 1) = _
          rw [ih (a + 1) (if m + 1 > 0 then s + 1 else s) (c + 1)
            (classify_error msg) (Nat.succ_pos m)]
          rw [if_pos (Nat.succ_pos m)]
          simp only [Prod.mk.injEq]
          refine ⟨by trivial, ?_, ?_, ?_⟩ <;> omega

/-- `download_single` under total failure with one message: final status is
the classification of that message, the returned count is `max_retries`,
with `max_retries - 1` sleeps and `max_retries` collaborator invocations. -/
theorem download_single_allfail (oracle : Nat → Option String) (msg : String)
    (hall : ∀ n, oracle n = some msg) (maxRetries : Nat) (h : 0 < maxRetries) :
    download_single oracle maxRetries =
      (classify_error msg, maxRetries, maxRetries - 1, maxRetries) := by
  have := download_go_allfail oracle msg hall maxRetries 0 0 0
    StatusCode.UNKNOWN_ERROR h
  simpa [download_single] using this

theorem download_go_calls_le (oracle : Nat → Option String) :
    ∀ fuel a last s c,
      (download_go oracle fuel a last s c).2.2.2 ≤ c + fuel := by
  intro fuel
  induction fuel with
  | zero => intro a last s c; simp [download_go]
  | succ n ih =>
      intro a last s c
      simp only [download_go]
      cases oracle (a + 1) with
      | none =>
          show c + 1 ≤ c + (n + 1)
          omega
      | some msg =>
          calc (download_go oracle n (a + 1) (classify_error msg)
                  (if n > 0 then s + 1 else s) (c + 1)).2.2.2
              ≤ (c + 1) + n := ih (a + 1) _ _ (c + 1)
            _ ≤ c + (n + 1) := by omega

theorem download_go_fail (oracle : Nat → Option String)
    (hfail : ∀ n, oracle n ≠ none) :
    ∀ fuel a last s c, last ≠ StatusCode.SUCCESS →
      (download_go oracle fuel a last s c).1 ≠ StatusCode.SUCCESS := by
  intro fuel
  induction fuel with
  | zero => intro a last s c hlast; simpa [download_go] using hlast
  | succ n ih =>
      intro a last s c hlast
      simp only [download_go]
      cases ho : oracle (a + 1) with
      | none => exact absurd ho (hfail (a + 1))
      | some msg => exact ih (a + 1) _ _ (c + 1) (classify_ne_success msg)

/-- A URL whose every attempt fails is never reported as SUCCESS. -/
theorem download_single_fail (oracle : Nat → Option String)
    (hfail : ∀ n, oracle n ≠ none) (maxRetries : Nat) :
    (download_single oracle maxRetries).1 ≠ StatusCode.SUCCESS :=
  download_go_fail oracle hfail maxRetries 0 _ 0 0 (by decide)

/-- The log entry `process_queue` builds for a URL whose download did not
succeed. -/
def failEntry (oracles : String → Nat → Option String) (mr : Nat)
    (u now : String) : LogEntry :=
  { url := u
    status := "failed"
    status_code := (download_single (oracles u) mr).1
    retries := (download_single (oracles u) mr).2.1
    date_created := now }

/-- A run over a one-URL queue whose download does not succeed: one log
entry with status "failed", and that URL collected for the failure file. -/
theorem runOnUrls_failone (oracles : String → Nat → Option String)
    (mr : Nat) (now u : String)
    (hfail : (download_single (oracles u) mr).1 ≠ StatusCode.SUCCESS) :
    runOnUrls oracles mr now [u] =
      ([failEntry oracles mr u now], [u]) := by
  simp [runOnUrls, failEntry, hfail]

/-- File effects of `process_queue` on a one-URL queue whose download does
not succeed. -/
theorem process_queue_failone (oracles : String → Nat → Option String)
    (mr : Nat) (now : String) (fs : FS) (u : String)
    (hq : load_queue fs.queue = [u])
    (hfail : (download_single (oracles u) mr).1 ≠ StatusCode.SUCCESS) :
    process_queue oracles mr now fs =
      { queue := fs.queue
        failed := append_failed fs.failed [u]
        log := some (LogContent.list (load_log fs.log ++
          [failEntry oracles mr u now])) } := by
  simp [process_queue, hq, runOnUrls_failone oracles mr now u hfail]

/-! ### The claims -/

/-- The Error Classifier exactly as claim C2 states it: only "429" triggers
RATE_LIMIT. -/
def claimC2Classifier (msg : String) : StatusCode :=
  if hasSub (lowerC msg.data) "429".data then StatusCode.RATE_LIMIT
  else if hasSub (lowerC msg.data) "age".data && hasSub (lowerC msg.data) "restrict".data then
    StatusCode.AGE_LIMIT
  else StatusCode.UNKNOWN_ERROR

/-- C2 counterexample: the message "rate" contains neither "429" nor both
"age" and "restrict", so the claim maps it to UNKNOWN_ERROR, but the code's
classifier returns RATE_LIMIT (its first branch also matches
"too many requests" and "rate"). -/
theorem C2_counterexample :
    classify_error "rate" = StatusCode.RATE_LIMIT ∧
    claimC2Classifier "rate" = StatusCode.UNKNOWN_ERROR ∧
    classify_error "rate" ≠ claimC2Classifier "rate" := by decide

/-- The Error Classifier as amended: a message containing "429",
"too many requests" or "rate" maps to RATE_LIMIT, else one containing both
"age" and "restrict" maps to AGE_LIMIT, anything else to UNKNOWN_ERROR,
case-insensitively. -/
def amendedC2Classifier (msg : String) : StatusCode :=
  if hasSub (lowerC msg.data) "429".data then StatusCode.RATE_LIMIT
  else if hasSub (lowerC msg.data) "too many requests".data then StatusCode.RATE_LIMIT
  else if hasSub (lowerC msg.data) "rate".data then StatusCode.RATE_LIMIT
  else if hasSub (lowerC msg.data) "age".data && hasSub (lowerC msg.data) "restrict".data then
    StatusCode.AGE_LIMIT
  else StatusCode.UNKNOWN_ERROR

/-- C2 (amended): the code's classifier maps any message containing "429",
"too many requests", or "rate" to RATE_LIMIT, any other message containing
both "age" and "restrict" to AGE_LIMIT, and any other message to
UNKNOWN_ERROR, matching case-insensitively. -/
theorem C2_classifier_amended (msg : String) :
    classify_error msg = amendedC2Classifier msg := by
  unfold classify_error classifyLowered amendedC2Classifier
  cases h1 : hasSub (lowerC msg.data) "429".data <;>
    cases h2 : hasSub (lowerC msg.data) "too many requests".data <;>
      cases h3 : hasSub (lowerC msg.data) "rate".data <;>
        simp [h1, h2, h3]

/-- C8: the error classifier is a total function returning exactly one of
the enum's codes for every failure message; totality of the Lean function
embeds "never raises", and it is pure by construction. -/
theorem C8_classifier_total (msg : String) :
    classify_error msg = StatusCode.RATE_LIMIT ∨
    classify_error msg = StatusCode.AGE_LIMIT ∨
    classify_error msg = StatusCode.UNKNOWN_ERROR := by
  unfold classify_error classifyLowered
  split
  · exact Or.inl rfl
  · split
    · exact Or.inr (Or.inl rfl)
    · exact Or.inr (Or.inr rfl)

/-- C7: loading the log is total for every possible file state, and an
absent, unparseable, or non-list log file loads as the empty log; only a
parsed list is returned as-is. -/
theorem C7_load_log_lenient (c : Option LogContent) :
    (c = none → load_log c = []) ∧
    (c = some LogContent.malformed → load_log c = []) ∧
    (c = some LogContent.nonList → load_log c = []) ∧
    (∀ l, c = some (LogContent.list l) → load_log c = l) := by
  refine ⟨?_, ?_, ?_, ?_⟩
  · rintro rfl; rfl
  · rintro rfl; rfl
  · rintro rfl; rfl
  · rintro l rfl; rfl

theorem C7_witness :
    load_log (some LogContent.malformed) = [] ∧ load_log none = [] :=
  ⟨(C7_load_log_lenient (some LogContent.malformed)).2.1 rfl,
   (C7_load_log_lenient none).1 rfl⟩

/-- C3: a download failing on attempt 1 and succeeding on attempt 2 with
`max_retries = 3` yields `(SUCCESS, 1)` from the Retry Controller, with
exactly one inter-retry sleep and two collaborator invocations. -/
theorem C3_success_second_attempt (oracle : Nat → Option String) (msg : String)
    (h1 : oracle 1 = some msg) (h2 : oracle 2 = none) :
    download_single oracle 3 = (StatusCode.SUCCESS, 1, 1, 2) := by
  have h1' : oracle (0 + 1) = some msg := h1
  have h2' : oracle (1 + 1) = none := h2
  have s1 : download_single oracle 3 =
      download_go oracle 2 1 (classify_error msg) 1 1 := by
    show download_go oracle (2 + 1) 0 StatusCode.UNKNOWN_ERROR 0 0 = _
    rw [download_go_succ, h1']
    rfl
  have s2 : download_go oracle 2 1 (classify_error msg) 1 1 =
      (StatusCode.SUCCESS, 1, 1, 2) := by
    show download_go oracle (1 + 1) 1 (classify_error msg) 1 1 = _
    rw [download_go_succ, h2']
  exact s1.trans s2

theorem C3_witness :
    download_single (fun n => if n = 1 then some "boom" else none) 3 =
      (StatusCode.SUCCESS, 1, 1, 2) :=
  C3_success_second_attempt (fun n => if n = 1 then some "boom" else none)
    "boom" rfl rfl

/-- C9: the retry loop makes at most `max_retries` collaborator invocations
(the loop terminates — the embedding is total by structural recursion on the
remaining budget), and with `max_retries = 0` it returns
`(UNKNOWN_ERROR, 0)` with no collaborator invocation and no sleep. -/
theorem C9_attempts_bounded (oracle : Nat → Option String) (maxRetries : Nat) :
    (download_single oracle maxRetries).2.2.2 ≤ maxRetries ∧
    (maxRetries = 0 →
      download_single oracle maxRetries =
        (StatusCode.UNKNOWN_ERROR, 0, 0, 0)) := by
  constructor
  · have h := download_go_calls_le oracle maxRetries 0 StatusCode.UNKNOWN_ERROR 0 0
    simpa [download_single] using h
  · intro h
    subst h
    rfl

theorem C9_witness :
    (download_single (fun _ => some "x") 0).2.2.2 ≤ 0 ∧
    download_single (fun _ => some "x") 0 =
      (StatusCode.UNKNOWN_ERROR, 0, 0, 0) :=
  ⟨(C9_attempts_bounded (fun _ => some "x") 0).1,
   (C9_attempts_bounded (fun _ => some "x") 0).2 rfl⟩

/-- Per-line rule of the Queue Loader as claim C5 states it: the candidate
is the first markdown-link URL of the line when one is present, otherwise
the trimmed line; blank and `#`-prefixed lines are excluded, and a candidate
is kept only when it matches the recognized video-host pattern. -/
def claimC5Line (line : String) : Option String :=
  let raw := strip line
  if raw.data.isEmpty then none
  else if isPre "#".data raw.data then none
  else
    let candidate :=
      match mdFirstLink raw.data with
      | some u => u
      | none => raw
    if hasYoutube candidate then some candidate else none

/-- The Queue Loader as claim C5 states it, as a filterMap over the file's
lines (preserving file order); a missing file yields the empty sequence. -/
def claimC5Loader : Option String → List String
  | none => []
  | some text => (splitlinesC text.data).filterMap claimC5Line

theorem loadQueueGo_filterMap (lines : List String) :
    loadQueueGo lines = lines.filterMap claimC5Line := by
  induction lines with
  | nil => rfl
  | cons line rest ih =>
      simp only [loadQueueGo, List.filterMap_cons, claimC5Line]
      cases he : (strip line).data.isEmpty with
      | true => simp [he, ih]
      | false =>
          cases hh : isPre "#".data (strip line).data with
          | true => simp [he, hh, ih]
          | false =>
              cases hm : mdFirstLink (strip line).data with
              | none =>
                  cases hy : hasYoutube (strip line) with
                  | true => simp [he, hh, hm, hy, ih]
                  | false => simp [he, hh, hm, hy, ih]
              | some u =>
                  cases hy : hasYoutube u with
                  | true => simp [he, hh, hm, hy, ih]
                  | false => simp [he, hh, hm, hy, ih]

/-- C5: the Queue Loader returns, in file order, exactly those candidates
(first markdown-link URL when present, else the trimmed line) that match
the recognized video-host pattern, excluding blank lines, `#`-prefixed
lines and non-matching candidates; a missing queue file yields the empty
sequence. -/
theorem C5_load_queue_refines (content : Option String) :
    load_queue content = claimC5Loader content := by
  cases content with
  | none => rfl
  | some text => exact loadQueueGo_filterMap (splitlinesC text.data)

/-- Oracle for claim C1's scenario: attempt 1 fails, attempt 2 succeeds. -/
def c1Oracle : Nat → Option String :=
  fun n => if n = 1 then some "temporary failure" else none

/-- C1 (code bug): with `max_retries = 3` and a URL failing once then
succeeding on attempt 2, the Retry Controller returns count 1 (which is
`attempts_made - 1`, attempts made being the 2 collaborator invocations),
but `process_queue` subtracts 1 again, so the persisted log entry records
`retries = 0` instead of the 1 the claim (and the spec's data model)
requires. -/
theorem C1_retries_bug :
    download_single c1Oracle 3 = (StatusCode.SUCCESS, 1, 1, 2) ∧
    (runOnUrls (fun _ => c1Oracle) 3 "2026-01-01T00:00:00Z"
        ["https://youtu.be/dQw4"]).1 =
      [{ url := "https://youtu.be/dQw4", status := "downloaded",
         status_code := StatusCode.SUCCESS, retries := 0,
         date_created := "2026-01-01T00:00:00Z" }] := by decide

/-- C4: a URL whose every attempt fails with a rate-limit-shaped message
under `max_retries = 3`: the Retry Controller returns `(RATE_LIMIT, 3)`
with exactly two inter-retry sleeps (and 3 collaborator invocations), and
after the run the URL is present in the persisted failure file. -/
theorem C4_rate_limited_exhaustion (oracles : String → Nat → Option String)
    (u msg now : String) (fs : FS)
    (hall : ∀ n, oracles u n = some msg)
    (hrl : classify_error msg = StatusCode.RATE_LIMIT)
    (hq : load_queue fs.queue = [u])
    (hu : '\n' ∉ u.data) :
    download_single (oracles u) 3 = (StatusCode.RATE_LIMIT, 3, 2, 3) ∧
    u ∈ loadLines ((process_queue oracles 3 now fs).failed) := by
  have hds : download_single (oracles u) 3 =
      (StatusCode.RATE_LIMIT, 3, 2, 3) := by
    have h := download_single_allfail (oracles u) msg hall 3 (by omega)
    rw [hrl] at h
    exact h
  refine ⟨hds, ?_⟩
  have hfail : (download_single (oracles u) 3).1 ≠ StatusCode.SUCCESS := by
    rw [hds]
    decide
  rw [process_queue_failone oracles 3 now fs u hq hfail]
  show u ∈ loadLines (append_failed fs.failed [u])
  rw [loadLines_append_failed fs.failed [u] (by simp)
    (by intro x hx; rw [List.mem_singleton.mp hx]; exact hu)]
  simp

theorem C4_witness :
    download_single ((fun _ _ => some "HTTP Error 429") "https://youtu.be/a") 3 =
      (StatusCode.RATE_LIMIT, 3, 2, 3) ∧
    "https://youtu.be/a" ∈ loadLines ((process_queue
      (fun _ _ => some "HTTP Error 429") 3 "2026-01-01T00:00:00Z"
      { queue := some "https://youtu.be/a\n", failed := none,
        log := none }).failed) :=
  C4_rate_limited_exhaustion (fun _ _ => some "HTTP Error 429")
    "https://youtu.be/a" "HTTP Error 429" "2026-01-01T00:00:00Z"
    { queue := some "https://youtu.be/a\n", failed := none, log := none }
    (fun _ => rfl) (by decide) (by decide) (by decide)

/-- C6: running the program twice over the same queue holding one
persistently failing URL appends a second copy of that URL to the failure
file while preserving all prior failure-file lines (no dedup), and the
persisted log after the second run is the prior entries followed by the
first run's entry followed by the second run's entry — nothing overwritten
or removed. -/
theorem C6_two_runs_append (oracles : String → Nat → Option String)
    (mr : Nat) (u now1 now2 : String) (fs : FS) (l0 : List LogEntry)
    (hq : load_queue fs.queue = [u])
    (hfail : ∀ n, oracles u n ≠ none)
    (hu : '\n' ∉ u.data)
    (hlog : fs.log = some (LogContent.list l0)) :
    loadLines ((process_queue oracles mr now2
        (process_queue oracles mr now1 fs)).failed) =
      loadLines fs.failed ++ [u, u] ∧
    ∃ e1 e2 : LogEntry,
      (process_queue oracles mr now2
          (process_queue oracles mr now1 fs)).log =
        some (LogContent.list (l0 ++ [e1, e2])) ∧
      e1.url = u ∧ e1.status = "failed" ∧ e1.date_created = now1 ∧
      e2.url = u ∧ e2.status = "failed" ∧ e2.date_created = now2 := by
  have hu1 : ∀ x ∈ [u], '\n' ∉ x.data := by
    intro x hx
    rw [List.mem_singleton.mp hx]
    exact hu
  have hf1 : (download_single (oracles u) mr).1 ≠ StatusCode.SUCCESS :=
    download_single_fail (oracles u) hfail mr
  have hp1 := process_queue_failone oracles mr now1 fs u hq hf1
  have hq1 : load_queue (process_queue oracles mr now1 fs).queue = [u] := by
    rw [hp1]
    exact hq
  have hp2 := process_queue_failone oracles mr now2
    (process_queue oracles mr now1 fs) u hq1 hf1
  have hfailed1 : (process_queue oracles mr now1 fs).failed =
      append_failed fs.failed [u] := by
    rw [hp1]
  have hlog1 : (process_queue oracles mr now1 fs).log =
      some (LogContent.list (l0 ++ [failEntry oracles mr u now1])) := by
    rw [hp1, hlog]
    rfl
  constructor
  · rw [hp2]
    show loadLines (append_failed
        (process_queue oracles mr now1 fs).failed [u]) =
      loadLines fs.failed ++ [u, u]
    rw [hfailed1,
      loadLines_append_failed (append_failed fs.failed [u]) [u] (by simp) hu1,
      loadLines_append_failed fs.failed [u] (by simp) hu1]
    simp
  · refine ⟨failEntry oracles mr u now1, failEntry oracles mr u now2,
      ?_, rfl, rfl, rfl, rfl, rfl, rfl⟩
    rw [hp2]
    show some (LogContent.list
        (load_log (process_queue oracles mr now1 fs).log ++
          [failEntry oracles mr u now2])) = _
    rw [hlog1]
    show some (LogContent.list
        ((l0 ++ [failEntry oracles mr u now1]) ++ [failEntry oracles mr u now2])) =
      some (LogContent.list
        (l0 ++ [failEntry oracles mr u now1, failEntry oracles mr u now2]))
    rw [List.append_assoc]
    rfl

theorem C6_witness :
    loadLines ((process_queue (fun _ _ => some "boom") 3 "t2"
        (process_queue (fun _ _ => some "boom") 3 "t1"
          { queue := some "https://youtu.be/a\n", failed := some "old\n",
            log := some (LogContent.list []) })).failed) =
      loadLines (some "old\n") ++ ["https://youtu.be/a", "https://youtu.be/a"] ∧
    ∃ e1 e2 : LogEntry,
      (process_queue (fun _ _ => some "boom") 3 "t2"
          (process_queue (fun _ _ => some "boom") 3 "t1"
            { queue := some "https://youtu.be/a\n", failed := some "old\n",
              log := some (LogContent.list []) })).log =
        some (LogContent.list ([] ++ [e1, e2])) ∧
      e1.url = "https://youtu.be/a" ∧ e1.status = "failed" ∧
      e1.date_created = "t1" ∧
      e2.url = "https://youtu.be/a" ∧ e2.status = "failed" ∧
      e2.date_created = "t2" :=
  C6_two_runs_append (fun _ _ => some "boom") 3 "https://youtu.be/a"
    "t1" "t2"
    { queue := some "https://youtu.be/a\n", failed := some "old\n",
      log := some (LogContent.list []) }
    [] (by decide) (fun n h => Option.noConfusion h) (by decide) rfl

/-- C10: in every run, the URL list handed to the failure file is exactly
the URLs of that run's log entries with status "failed", in processing
order; an entry's status is "downloaded" exactly when its status_code is
SUCCESS; and on a nonempty queue `process_queue` appends precisely that
URL list to the failure file. -/
theorem C10_failed_matches_entries (oracles : String → Nat → Option String)
    (mr : Nat) (now : String) (urls : List String) :
    (runOnUrls oracles mr now urls).2 =
      ((runOnUrls oracles mr now urls).1.filter
        (fun e => e.status == "failed")).map LogEntry.url ∧
    (∀ e ∈ (runOnUrls oracles mr now urls).1,
      (e.status = "downloaded" ↔ e.status_code = StatusCode.SUCCESS)) ∧
    (∀ fs : FS, load_queue fs.queue = urls → urls ≠ [] →
      (process_queue oracles mr now fs).failed =
        append_failed fs.failed ((runOnUrls oracles mr now urls).2)) := by
  refine ⟨?_, ?_, ?_⟩
  · induction urls with
    | nil => rfl
    | cons url rest ih =>
        by_cases h : (download_single (oracles url) mr).1 = StatusCode.SUCCESS
        · simp [runOnUrls, h, ih]
        · simp [runOnUrls, h, ih]
  · induction urls with
    | nil =>
        intro e he
        simp [runOnUrls] at he
    | cons url rest ih =>
        intro e he
        simp only [runOnUrls, List.mem_cons] at he
        rcases he with he | he
        · subst he
          by_cases h : (download_single (oracles url) mr).1 = StatusCode.SUCCESS
          · simp [h]
          · simp [h]
        · exact ih e he
  · intro fs hq hne
    have hiff : urls.isEmpty = false := by
      cases urls with
      | nil => exact absurd rfl hne
      | cons a l => rfl
    simp [process_queue, hq, hiff]

theorem C10_witness :
    (runOnUrls (fun _ _ => some "429") 3 "t" ["https://youtu.be/a"]).2 =
      ((runOnUrls (fun _ _ => some "429") 3 "t" ["https://youtu.be/a"]).1.filter
        (fun e => e.status == "failed")).map LogEntry.url ∧
    (({ url := "https://youtu.be/a", status := "failed",
        status_code := StatusCode.RATE_LIMIT, retries := 3,
        date_created := "t" } : LogEntry).status = "downloaded" ↔
      ({ url := "https://youtu.be/a", status := "failed",
         status_code := StatusCode.RATE_LIMIT, retries := 3,
         date_created := "t" } : LogEntry).status_code = StatusCode.SUCCESS) ∧
    (process_queue (fun _ _ => some "429") 3 "t"
        { queue := some "https://youtu.be/a\n", failed := none,
          log := none }).failed =
      append_failed none
        ((runOnUrls (fun _ _ => some "429") 3 "t" ["https://youtu.be/a"]).2) :=
  ⟨(C10_failed_matches_entries (fun _ _ => some "429") 3 "t"
      ["https://youtu.be/a"]).1,
   (C10_failed_matches_entries (fun _ _ => some "429") 3 "t"
      ["https://youtu.be/a"]).2.1 _ (by decide),
   (C10_failed_matches_entries (fun _ _ => some "429") 3 "t"
      ["https://youtu.be/a"]).2.2
     { queue := some "https://youtu.be/a\n", failed := none, log := none }
     (by decide) (by decide)⟩

end YtQueue
